import Mathlib

/-!
# vSphere resource discovery and teardown (pkg/resources/vsphere.go)

A shallow embedding of `listResourcesVSphere`, `listVMs`, `deleteVM`,
`DumpVMInfo` and `GetResourceTrackerKey`.

The vSphere provider (govmomi and the `VSphereCloud` client) is external to the
file: it is taken as a parameter.  Every provider call is recorded in a call
history, and the provider's answer to a call is a function of the history of
the calls made before it, which covers every deterministic stateful provider.
Where a statement depends on which entities a pattern selects, the provider's
matching is modelled as wildcard matching (`globMatch`, `honoursPatterns`).
-/

namespace VSphere

/-! ## Data model -/

/-- Go `error` values, as far as the code tells them apart: the type switch of
`listVMs` only asks whether the error is a `*find.NotFoundError`. -/
inductive GoError where
  | notFound (msg : String)
  | other (msg : String)
  deriving DecidableEq, Repr

/-- The type assertion `err.(*find.NotFoundError)`. -/
def GoError.isNotFound : GoError → Bool
  | .notFound _ => true
  | .other _ => false

/-- A provider entity `*object.VirtualMachine`: its managed object reference
(the identity of the handle) and the name that `vm.Name()` returns. -/
structure VirtualMachine where
  Reference : String
  Name : String
  deriving DecidableEq, Repr

/-- An awaitable operation handle `*object.Task`. -/
structure Task where
  Reference : String
  deriving DecidableEq, Repr

/-- The dynamic value held in `tracker.Resource.Obj` (an `interface{}`). -/
inductive Obj where
  | nil
  | virtualMachine (vm : VirtualMachine)
  | other (tag : String)
  deriving DecidableEq, Repr

/-- The function value bound to `tracker.Resource.Deleter`. -/
inductive Deleter where
  | none
  | deleteVM
  deriving DecidableEq, Repr

/-- The function value bound to `tracker.Resource.Dumper`. -/
inductive Dumper where
  | none
  | DumpVMInfo
  deriving DecidableEq, Repr

/-- The record `tracker.Resource`, with the fields this file sets. -/
structure Resource where
  Name : String
  ID : String
  /-- The Go field `Type`, a reserved word here; the spec calls it `Kind`. -/
  Kind : String
  Deleter : Deleter
  Dumper : Dumper
  Obj : Obj
  deriving DecidableEq, Repr

/-- The constant `typeVM`. -/
def typeVM : String := "VM"

/-- One observable action of the code: a provider call with its arguments, or a
`glog` call. -/
inductive Event where
  | getVirtualMachines (args : List String)
  | powerOff (vm : VirtualMachine)
  | destroy (vm : VirtualMachine)
  | wait (task : Task)
  | deleteCloudInitISO (name : String)
  | glogWarning (err : GoError)
  | glogFatalf (format : String) (err : GoError)
  deriving DecidableEq, Repr

/-- The actions performed so far, oldest first. -/
abbrev History := List Event

/-- The provider handle `*vsphere.VSphereCloud` together with the govmomi
operations reached through it.  Each operation answers as a function of the
history of the calls made before it. -/
structure VSphereCloud where
  /-- `GetVirtualMachines(args)` returns `([]*object.VirtualMachine, error)`. -/
  GetVirtualMachines : History → List String → List VirtualMachine × Option GoError
  /-- `vm.PowerOff(ctx)` returns `(*object.Task, error)`. -/
  PowerOff : History → VirtualMachine → Except GoError Task
  /-- `vm.Destroy(ctx)` returns `(*object.Task, error)`. -/
  Destroy : History → VirtualMachine → Except GoError Task
  /-- `task.Wait(ctx)` returns `error`. -/
  Wait : History → Task → Option GoError
  /-- `DeleteCloudInitISO(name)` returns `error`. -/
  DeleteCloudInitISO : History → String → Option GoError

/-- The interface value `fi.Cloud`: a vSphere cloud or some other provider. -/
inductive Cloud where
  | vsphere (vc : VSphereCloud)
  | other (providerID : String)

/-- The fields of `ClusterResources` that `listResourcesVSphere` reads. -/
structure ClusterResources where
  ClusterName : String
  Cloud : Cloud

/-- The struct `clusterDiscoveryVSphere`. -/
structure clusterDiscoveryVSphere where
  cloud : Cloud
  vsphereCloud : VSphereCloud
  clusterName : String

/-- How a Go call ends: it returns a value, it panics (a failed type
assertion), or the process is terminated by `glog.Fatalf`. -/
inductive Outcome (α : Type) where
  | returned (value : α)
  | panicked
  | fatal (format : String) (err : GoError)
  deriving DecidableEq, Repr

/-! ## The result map -/

/-- A Go `map[string]*tracker.Resource`: an association list that holds each
key at most once. -/
abbrev GoMap := List (String × Resource)

namespace GoMap

/-- The assignment `m[k] = v`: overwrite the entry of `k`, or add one. -/
def set : GoMap → String → Resource → GoMap
  | [], k, v => [(k, v)]
  | (k', v') :: rest, k, v =>
    if k' = k then (k, v) :: rest else (k', v') :: set rest k v

/-- The lookup `m[k]`. -/
def get? : GoMap → String → Option Resource
  | [], _ => none
  | (k', v') :: rest, k => if k' = k then some v' else get? rest k

/-- The key set of the map. -/
def keys (m : GoMap) : List String := m.map Prod.fst

end GoMap

/-! ## The code -/

/-- Source `GetResourceTrackerKey`: `t.Type + ":" + t.ID`. -/
def GetResourceTrackerKey (t : Resource) : String :=
  t.Kind ++ ":" ++ t.ID

/-- Source `DumpVMInfo`: the map with the entries `id`, `type` and `raw`, and a
nil error. -/
def DumpVMInfo (r : Resource) : (String × String × Obj) × Option GoError :=
  ((r.ID, r.Kind, r.Obj), none)

/-- The type `vsphereListFn`, `func() ([]*tracker.Resource, error)`: a closure
that acts on the world `σ` and returns both values. -/
abbrev vsphereListFn (σ : Type) := σ → (List Resource × Option GoError) × σ

/-- The inner loop of `listResourcesVSphere` (lines 61-63):
`resources[GetResourceTrackerKey(t)] = t` for each tracker. -/
def addTrackers (resources : GoMap) (trackers : List Resource) : GoMap :=
  trackers.foldl (fun m t => GoMap.set m (GetResourceTrackerKey t) t) resources

/-- The outer loop of `listResourcesVSphere` with its final return (lines
56-66): run each list function in turn; on the first error return the nil map
and that error, otherwise merge the trackers and go on. -/
def runListFunctions {σ : Type} :
    List (vsphereListFn σ) → GoMap → σ → (Option GoMap × Option GoError) × σ
  | [], resources, w => ((some resources, none), w)
  | fn :: rest, resources, w =>
    match fn w with
    | ((_, some err), w') => ((none, some err), w')
    | ((trackers, none), w') => runListFunctions rest (addTrackers resources trackers) w'

/-- The first pattern of `listVMs`. -/
def regexForMasterVMs (clusterName : String) : String :=
  "*" ++ "." ++ "masters" ++ "." ++ clusterName ++ "*"

/-- The second pattern of `listVMs`. -/
def regexForNodeVMs (clusterName : String) : String :=
  "nodes" ++ "." ++ clusterName ++ "*"

/-- The record `listVMs` builds for one entity (lines 85-92). -/
def vmTracker (vm : VirtualMachine) : Resource :=
  { Name := vm.Name, ID := vm.Name, Kind := typeVM,
    Deleter := Deleter.deleteVM, Dumper := Dumper.DumpVMInfo,
    Obj := Obj.virtualMachine vm }

/-- Source `listVMs`: query the provider with the two patterns; an error that
is not a `NotFoundError` is returned with a nil slice; a `NotFoundError` is
logged as a warning and execution goes on to the loop over `vms`. -/
def listVMs (d : clusterDiscoveryVSphere) : vsphereListFn History := fun h =>
  let c := d.vsphereCloud
  let args := [regexForMasterVMs d.clusterName, regexForNodeVMs d.clusterName]
  let h1 := h ++ [Event.getVirtualMachines args]
  match c.GetVirtualMachines h args with
  | (vms, some err) =>
    if !err.isNotFound then (([], some err), h1)
    else ((vms.map vmTracker, none), h1 ++ [Event.glogWarning err])
  | (vms, none) => ((vms.map vmTracker, none), h1)

/-- Source `listResourcesVSphere`: assert that the cloud is a vSphere cloud,
start from an empty map and run the list functions, here `d.listVMs` alone. -/
def listResourcesVSphere (c : ClusterResources) (h : History) :
    Outcome (Option GoMap × Option GoError) × History :=
  match c.Cloud with
  | Cloud.other _ => (Outcome.panicked, h)
  | Cloud.vsphere vsphereCloud =>
    let resources : GoMap := []
    let d : clusterDiscoveryVSphere :=
      { cloud := c.Cloud, vsphereCloud := vsphereCloud, clusterName := c.ClusterName }
    let listFunctions := [listVMs d]
    let res := runListFunctions listFunctions resources h
    (Outcome.returned res.1, res.2)

/-- Source `deleteVM`: assert the cloud and the handle, power off, wait (the
error of this wait is dropped), delete the cloud-init ISO (its error is
dropped), destroy, wait; a failure of the last wait ends in `glog.Fatalf`. -/
def deleteVM (cloud : Cloud) (r : Resource) (h : History) :
    Outcome (Option GoError) × History :=
  match cloud with
  | Cloud.other _ => (Outcome.panicked, h)
  | Cloud.vsphere vsphereCloud =>
    match r.Obj with
    | Obj.virtualMachine vm =>
      let h1 := h ++ [Event.powerOff vm]
      match vsphereCloud.PowerOff h vm with
      | Except.error err => (Outcome.returned (some err), h1)
      | Except.ok task =>
        let _ := vsphereCloud.Wait h1 task
        let h2 := h1 ++ [Event.wait task]
        let _ := vsphereCloud.DeleteCloudInitISO h2 vm.Name
        let h3 := h2 ++ [Event.deleteCloudInitISO vm.Name]
        let h4 := h3 ++ [Event.destroy vm]
        match vsphereCloud.Destroy h3 vm with
        | Except.error err => (Outcome.returned (some err), h4)
        | Except.ok task2 =>
          let h5 := h4 ++ [Event.wait task2]
          match vsphereCloud.Wait h4 task2 with
          | some err =>
            (Outcome.fatal "Destroy VM failed: %q" err,
              h5 ++ [Event.glogFatalf "Destroy VM failed: %q" err])
          | none => (Outcome.returned none, h5)
    | _ => (Outcome.panicked, h)

/-! ## Vocabulary of the statements -/

/-- Every list function of the list returns a nil error when the functions are
run in order, each on the world its predecessor left. -/
def allSucceed {σ : Type} : List (vsphereListFn σ) → σ → Prop
  | [], _ => True
  | fn :: rest, w => (fn w).1.2 = none ∧ allSucceed rest (fn w).2

/-- The world left after the functions have all been run in order. -/
def worldAfter {σ : Type} : List (vsphereListFn σ) → σ → σ
  | [], w => w
  | fn :: rest, w => worldAfter rest (fn w).2

/-- The records produced by the functions run in order: registration order
first, then the order within each returned slice. -/
def producedRecords {σ : Type} : List (vsphereListFn σ) → σ → List Resource
  | [], _ => []
  | fn :: rest, w => (fn w).1.1 ++ producedRecords rest (fn w).2

/-- The last record of a sequence whose tracker key is `k`. -/
def lastWithKey (records : List Resource) (k : String) : Option Resource :=
  (records.filter (fun r => GetResourceTrackerKey r = k)).getLast?

/-- The events a run added to the history `h` it started from. -/
def newEvents (h : History) (after : History) : History := after.drop h.length

/-- The event is a `vm.Destroy` call. -/
def Event.isDestroy : Event → Bool
  | Event.destroy _ => true
  | _ => false

/-- The event is a `DeleteCloudInitISO` call. -/
def Event.isDeleteCloudInitISO : Event → Bool
  | Event.deleteCloudInitISO _ => true
  | _ => false

/-- The history in which `deleteVM` waits on the power-off task. -/
def historyAtPowerOffWait (h : History) (vm : VirtualMachine) : History :=
  h ++ [Event.powerOff vm]

/-- The history in which `deleteVM` issues the destroy call, after a power-off
that returned the task `task`. -/
def historyAtDestroy (h : History) (vm : VirtualMachine) (task : Task) : History :=
  h ++ [Event.powerOff vm] ++ [Event.wait task] ++ [Event.deleteCloudInitISO vm.Name]

/-- The history in which `deleteVM` waits on the destroy task. -/
def historyAtDestroyWait (h : History) (vm : VirtualMachine) (task : Task) : History :=
  historyAtDestroy h vm task ++ [Event.destroy vm]

/-- The discovery struct `listResourcesVSphere` builds for a vSphere cloud. -/
def discoveryOf (c : ClusterResources) (vc : VSphereCloud) : clusterDiscoveryVSphere :=
  { cloud := c.Cloud, vsphereCloud := vc, clusterName := c.ClusterName }

/-! ## The provider's pattern matching -/

/-- Modelled from the spec: the wildcard convention of the ownership patterns,
which the provider applies and which is not among the sources. A `*` of the
pattern stands for any run of characters of the name, the empty one included;
every other character stands for itself. -/
def globMatchChars : List Char → List Char → Bool
  | [], name => name.isEmpty
  | p :: ps, name =>
    if p = '*' then name.tails.any (fun rest => globMatchChars ps rest)
    else
      match name with
      | [] => false
      | c :: cs => decide (p = c) && globMatchChars ps cs

/-- Modelled from the spec: whether an entity name matches an ownership
pattern, by the wildcard convention of `globMatchChars`. -/
def globMatch (pattern name : String) : Bool :=
  globMatchChars pattern.data name.data

/-- Modelled from the spec: the provider query `GetVirtualMachines` (package
`upup/pkg/fi/cloudup/vsphere`, not among the sources) honours the patterns over
an inventory of entities: it returns the entities of the inventory whose name
matches one of the patterns and no others, and its error is nil or a not-found
error. -/
def honoursPatterns (vc : VSphereCloud) (inventory : List VirtualMachine) : Prop :=
  ∀ (h : History) (args : List String),
    (∀ vm, vm ∈ (vc.GetVirtualMachines h args).1 ↔
      vm ∈ inventory ∧ ∃ p ∈ args, globMatch p vm.Name = true) ∧
    ((vc.GetVirtualMachines h args).2 = none ∨
      ∃ msg, (vc.GetVirtualMachines h args).2 = some (GoError.notFound msg))

/-! ## Sample inputs -/

/-- A master entity of cluster `prod`. -/
def vmMaster : VirtualMachine := { Reference := "vm-101", Name := "masters.prod.i-1" }

/-- A node entity of cluster `prod`. -/
def vmNode : VirtualMachine := { Reference := "vm-102", Name := "nodes.prod.i-2" }

/-- The task a sample power-off returns. -/
def taskOff : Task := { Reference := "task-1" }

/-- The task a sample destroy returns. -/
def taskDestroy : Task := { Reference := "task-2" }

/-- A provider whose answers are fixed: the answer of the query, of the
power-off call, of the wait on the power-off task, of the ISO clean-up, of the
destroy call and of the wait on the destroy task. -/
def scriptedCloud (query : List VirtualMachine × Option GoError)
    (off : Except GoError Task) (offWait : Option GoError) (cleanup : Option GoError)
    (destroy : Except GoError Task) (destroyWait : Option GoError) : VSphereCloud :=
  { GetVirtualMachines := fun _ _ => query
    PowerOff := fun _ _ => off
    Destroy := fun _ _ => destroy
    Wait := fun _ task => if task = taskOff then offWait else destroyWait
    DeleteCloudInitISO := fun _ _ => cleanup }

/-- A provider on which everything succeeds and the query finds both sample
entities. -/
def healthyCloud : VSphereCloud :=
  scriptedCloud ([vmMaster, vmNode], none) (Except.ok taskOff) none none
    (Except.ok taskDestroy) none

/-- A provider whose power-off call fails to start. -/
def powerOffRefusedCloud : VSphereCloud :=
  scriptedCloud ([], none) (Except.error (GoError.other "power-off refused")) none none
    (Except.ok taskDestroy) none

/-- A provider whose destroy call fails to start. -/
def destroyRefusedCloud : VSphereCloud :=
  scriptedCloud ([], none) (Except.ok taskOff) none none
    (Except.error (GoError.other "destroy refused")) none

/-- A provider whose power-off task reports a failure when waited on. -/
def powerOffWaitFailsCloud : VSphereCloud :=
  scriptedCloud ([], none) (Except.ok taskOff) (some (GoError.other "power-off task failed"))
    none (Except.ok taskDestroy) none

/-- A provider whose destroy task reports a failure when waited on. -/
def destroyWaitFailsCloud : VSphereCloud :=
  scriptedCloud ([], none) (Except.ok taskOff) none none (Except.ok taskDestroy)
    (some (GoError.other "destroy task failed"))

/-- A clean-up behaviour that always fails. -/
def cleanupFails : History → String → Option GoError :=
  fun _ _ => some (GoError.other "no ISO to delete")

/-- A provider whose query returns a `NotFoundError` together with the master
entity: one pattern matched, the other did not. -/
def notFoundWithEntityCloud : VSphereCloud :=
  scriptedCloud ([vmMaster], some (GoError.notFound "vm nodes.prod* not found"))
    (Except.ok taskOff) none none (Except.ok taskDestroy) none

/-- A provider whose query returns a `NotFoundError` and no entity. -/
def notFoundEmptyCloud : VSphereCloud :=
  scriptedCloud ([], some (GoError.notFound "vm *.masters.empty* not found"))
    (Except.ok taskOff) none none (Except.ok taskDestroy) none

/-- A second handle with the name of `vmMaster`. -/
def vmMasterTwin : VirtualMachine := { Reference := "vm-201", Name := "masters.prod.i-1" }

/-- A query over an inventory that honours the patterns: each pattern in turn
contributes the entities it matches, and a pattern that matches none is
reported as a not-found error next to the entities of the other patterns. -/
def globQuery (inventory : List VirtualMachine) :
    List String → List VirtualMachine × Option GoError
  | [] => ([], none)
  | arg :: rest =>
    let found := inventory.filter (fun vm => globMatch arg vm.Name)
    let later := globQuery inventory rest
    (found ++ later.1,
      match later.2 with
      | some err => some err
      | none => if found.isEmpty then some (GoError.notFound arg) else none)

/-- A provider on which everything succeeds and whose query honours the
patterns over the given inventory. -/
def globCloud (inventory : List VirtualMachine) : VSphereCloud :=
  { GetVirtualMachines := fun _ args => globQuery inventory args
    PowerOff := fun _ _ => Except.ok taskOff
    Destroy := fun _ _ => Except.ok taskDestroy
    Wait := fun _ _ => none
    DeleteCloudInitISO := fun _ _ => none }

/-- A master entity of cluster `prod` whose name carries a segment before
`.masters.`. -/
def vmMasterA : VirtualMachine :=
  { Reference := "vm-301", Name := "master-a.masters.prod.i-1" }

/-- The cluster `prod` on a provider that honours the patterns and holds the
entities `masters.prod.i-1` and `nodes.prod.i-2`. -/
def prodCluster : ClusterResources :=
  { ClusterName := "prod", Cloud := Cloud.vsphere (globCloud [vmMaster, vmNode]) }

/-- The cluster `empty` on the provider that finds nothing. -/
def emptyCluster : ClusterResources :=
  { ClusterName := "empty", Cloud := Cloud.vsphere notFoundEmptyCloud }

/-- A list function that counts its calls in the world and returns one record. -/
def countingListFn (vm : VirtualMachine) : vsphereListFn Nat :=
  fun n => (([vmTracker vm], none), n + 1)

/-- A list function that counts its call and fails. -/
def failingListFn (err : GoError) : vsphereListFn Nat :=
  fun n => (([], some err), n + 1)

/-! ## The result map: lookup, keys and entries -/

theorem GoMap.get?_set (m : GoMap) (k k' : String) (v : Resource) :
    GoMap.get? (GoMap.set m k v) k' = if k = k' then some v else GoMap.get? m k' := by
  induction m with
  | nil => simp [GoMap.set, GoMap.get?]
  | cons e rest ih =>
    obtain ⟨a, b⟩ := e
    by_cases hak : a = k
    · subst hak
      by_cases hak' : a = k' <;> simp [GoMap.set, GoMap.get?, hak']
    · by_cases hak' : a = k'
      · subst hak'
        have hne : ¬ k = a := fun h => hak h.symm
        simp [GoMap.set, GoMap.get?, hak, hne]
      · simp [GoMap.set, GoMap.get?, hak, hak', ih]

theorem GoMap.mem_keys_iff (m : GoMap) (k : String) :
    k ∈ GoMap.keys m ↔ (GoMap.get? m k).isSome = true := by
  induction m with
  | nil => simp [GoMap.keys, GoMap.get?]
  | cons e rest ih =>
    obtain ⟨a, b⟩ := e
    by_cases hak : a = k
    · simp [GoMap.keys, GoMap.get?, hak]
    · have hne : ¬ k = a := fun h => hak h.symm
      have ih' : k ∈ List.map Prod.fst rest ↔ (GoMap.get? rest k).isSome = true := ih
      simp only [GoMap.keys, GoMap.get?, List.map_cons, List.mem_cons, hak, hne, if_false,
        false_or]
      exact ih'

theorem GoMap.mem_keys_set (m : GoMap) (k k' : String) (v : Resource) :
    k' ∈ GoMap.keys (GoMap.set m k v) ↔ k' = k ∨ k' ∈ GoMap.keys m := by
  rw [GoMap.mem_keys_iff, GoMap.mem_keys_iff, GoMap.get?_set]
  by_cases h : k = k'
  · simp [h]
  · have h' : ¬ k' = k := fun e => h e.symm
    simp [h, h']

theorem GoMap.nodup_keys_set (m : GoMap) (k : String) (v : Resource)
    (hm : (GoMap.keys m).Nodup) : (GoMap.keys (GoMap.set m k v)).Nodup := by
  induction m with
  | nil => simp [GoMap.set, GoMap.keys]
  | cons e rest ih =>
    obtain ⟨a, b⟩ := e
    have hm' : a ∉ GoMap.keys rest ∧ (GoMap.keys rest).Nodup := by
      simpa [GoMap.keys] using hm
    by_cases hak : a = k
    · subst hak
      simpa [GoMap.set, GoMap.keys] using hm
    · have hrest := ih hm'.2
      have hnot : a ∉ GoMap.keys (GoMap.set rest k v) := by
        rw [GoMap.mem_keys_set]
        rintro (h | h)
        · exact hak h
        · exact hm'.1 h
      have hcons : GoMap.keys ((a, b) :: GoMap.set rest k v)
          = a :: GoMap.keys (GoMap.set rest k v) := rfl
      simp only [GoMap.set, hak, if_false, hcons, List.nodup_cons]
      exact ⟨hnot, hrest⟩

theorem GoMap.mem_iff_get? (m : GoMap) (hm : (GoMap.keys m).Nodup) (k : String) (v : Resource) :
    (k, v) ∈ m ↔ GoMap.get? m k = some v := by
  induction m with
  | nil => simp [GoMap.get?]
  | cons e rest ih =>
    obtain ⟨a, b⟩ := e
    have hm' : a ∉ GoMap.keys rest ∧ (GoMap.keys rest).Nodup := by
      simpa [GoMap.keys] using hm
    by_cases hak : a = k
    · subst hak
      have hnot : (a, v) ∉ rest := fun h =>
        hm'.1 (List.mem_map.2 ⟨(a, v), h, rfl⟩)
      simp only [GoMap.get?, if_true, List.mem_cons, Prod.mk.injEq, true_and, Option.some.injEq]
      constructor
      · rintro (h | h)
        · exact h.symm
        · exact absurd h hnot
      · intro h
        exact Or.inl h.symm
    · have hne : ¬ k = a := fun h => hak h.symm
      simp only [GoMap.get?, hak, if_false, List.mem_cons, Prod.mk.injEq, hne, false_and,
        false_or]
      exact ih hm'.2

/-! ## Merging trackers into the map -/

theorem addTrackers_cons (m : GoMap) (t : Resource) (ts : List Resource) :
    addTrackers m (t :: ts) = addTrackers (GoMap.set m (GetResourceTrackerKey t) t) ts := rfl

theorem addTrackers_append (m : GoMap) (ts us : List Resource) :
    addTrackers m (ts ++ us) = addTrackers (addTrackers m ts) us := by
  simp [addTrackers, List.foldl_append]

theorem lastWithKey_cons (t : Resource) (ts : List Resource) (k : String) :
    lastWithKey (t :: ts) k
      = (lastWithKey ts k).or (if GetResourceTrackerKey t = k then some t else none) := by
  unfold lastWithKey
  by_cases h : GetResourceTrackerKey t = k
  · rw [List.filter_cons_of_pos (by simpa using h), List.getLast?_cons, if_pos h]
    generalize List.getLast? (List.filter (fun r => decide (GetResourceTrackerKey r = k)) ts) = o
    cases o <;> rfl
  · rw [List.filter_cons_of_neg (by simpa using h), if_neg h]
    generalize List.getLast? (List.filter (fun r => decide (GetResourceTrackerKey r = k)) ts) = o
    cases o <;> rfl

theorem addTrackers_get? (ts : List Resource) (m : GoMap) (k : String) :
    GoMap.get? (addTrackers m ts) k = (lastWithKey ts k).or (GoMap.get? m k) := by
  induction ts generalizing m with
  | nil => simp [addTrackers, lastWithKey, Option.or]
  | cons t ts ih =>
    rw [addTrackers_cons, ih, GoMap.get?_set, lastWithKey_cons]
    cases lastWithKey ts k with
    | some r => rfl
    | none =>
      by_cases h : GetResourceTrackerKey t = k <;> simp [Option.or, h]

theorem addTrackers_nodup (ts : List Resource) (m : GoMap) (hm : (GoMap.keys m).Nodup) :
    (GoMap.keys (addTrackers m ts)).Nodup := by
  induction ts generalizing m with
  | nil => simpa [addTrackers] using hm
  | cons t ts ih =>
    rw [addTrackers_cons]
    exact ih _ (GoMap.nodup_keys_set m _ t hm)

theorem lastWithKey_key (ts : List Resource) (k : String) (r : Resource)
    (h : lastWithKey ts k = some r) : r ∈ ts ∧ GetResourceTrackerKey r = k := by
  unfold lastWithKey at h
  have hmem : r ∈ List.filter (fun r => decide (GetResourceTrackerKey r = k)) ts :=
    List.mem_of_getLast?_eq_some h
  simpa using hmem

theorem lastWithKey_isSome (ts : List Resource) (k : String) :
    (lastWithKey ts k).isSome = true ↔ ∃ r ∈ ts, GetResourceTrackerKey r = k := by
  constructor
  · intro h
    obtain ⟨r, hr⟩ := Option.isSome_iff_exists.1 h
    exact ⟨r, lastWithKey_key ts k r hr⟩
  · rintro ⟨r, hr, hk⟩
    have hmem : r ∈ List.filter (fun r => decide (GetResourceTrackerKey r = k)) ts := by
      simp [hr, hk]
    unfold lastWithKey
    cases hl : List.filter (fun r => decide (GetResourceTrackerKey r = k)) ts with
    | nil => rw [hl] at hmem; exact absurd hmem (List.not_mem_nil r)
    | cons a l => simp [List.getLast?_cons]

/-- The loop run on functions that all succeed returns the map obtained by
merging every produced record, a nil error and the world left by the last
function. -/
theorem runListFunctions_of_allSucceed {σ : Type} (fns : List (vsphereListFn σ))
    (resources : GoMap) (w : σ) (h : allSucceed fns w) :
    runListFunctions fns resources w
      = ((some (addTrackers resources (producedRecords fns w)), none), worldAfter fns w) := by
  induction fns generalizing resources w with
  | nil => simp [runListFunctions, producedRecords, worldAfter, addTrackers]
  | cons fn rest ih =>
    obtain ⟨h1, h2⟩ := h
    rcases hfw : fn w with ⟨⟨trackers, err⟩, w'⟩
    rw [hfw] at h1 h2
    simp only at h1 h2
    subst h1
    simp only [runListFunctions, producedRecords, worldAfter, hfw]
    rw [ih _ _ h2, addTrackers_append]

theorem lastWithKey_eq_none_iff (ts : List Resource) (k : String) :
    lastWithKey ts k = none ↔ ∀ x ∈ ts, GetResourceTrackerKey x ≠ k := by
  constructor
  · intro h x hx hk
    have hs := (lastWithKey_isSome ts k).2 ⟨x, hx, hk⟩
    rw [h] at hs
    exact absurd hs (by simp)
  · intro h
    cases hl : lastWithKey ts k with
    | none => rfl
    | some r =>
      obtain ⟨hr, hk⟩ := lastWithKey_key ts k r hl
      exact absurd hk (h r hr)

/-- The record `lastWithKey` finds is the one after which no record of the
sequence has the key. -/
theorem lastWithKey_eq_some_iff (ts : List Resource) (k : String) (r : Resource) :
    lastWithKey ts k = some r ↔
      ∃ before after, ts = before ++ r :: after ∧ GetResourceTrackerKey r = k ∧
        ∀ x ∈ after, GetResourceTrackerKey x ≠ k := by
  induction ts with
  | nil => simp [lastWithKey]
  | cons t ts ih =>
    rw [lastWithKey_cons]
    constructor
    · intro h
      cases hl : lastWithKey ts k with
      | some r' =>
        rw [hl] at h
        have hr : r' = r := by simpa [Option.or] using h
        subst hr
        obtain ⟨before, after, hts, hk, hafter⟩ := ih.1 hl
        exact ⟨t :: before, after, by rw [hts]; rfl, hk, hafter⟩
      | none =>
        rw [hl] at h
        by_cases hk : GetResourceTrackerKey t = k
        · have hr : t = r := by simpa [Option.or, hk] using h
          subst hr
          exact ⟨[], ts, rfl, hk, (lastWithKey_eq_none_iff ts k).1 hl⟩
        · simp [Option.or, hk] at h
    · rintro ⟨before, after, hts, hk, hafter⟩
      cases before with
      | nil =>
        have h1 : t = r ∧ ts = after := by simpa using hts
        obtain ⟨h1a, h1b⟩ := h1
        subst h1a
        subst h1b
        rw [(lastWithKey_eq_none_iff ts k).2 hafter]
        simp [Option.or, hk]
      | cons b before =>
        have h1 : t = b ∧ ts = before ++ r :: after := by simpa using hts
        rw [ih.2 ⟨before, after, h1.2, hk, hafter⟩]
        rfl

/-! ## Discovery orchestrator -/

/-- C1 (fail-fast discovery): when the functions of `pre` all succeed and the
next function `fn` returns the error `err`, the loop of `listResourcesVSphere`
returns the nil map with exactly `err`, whatever map had been built so far, and
leaves the world as `fn` left it: the functions of `post` are not run. -/
theorem listResourcesVSphere_fail_fast {σ : Type} (pre post : List (vsphereListFn σ))
    (fn : vsphereListFn σ) (resources : GoMap) (w : σ) (err : GoError)
    (hpre : allSucceed pre w)
    (hfail : (fn (worldAfter pre w)).1.2 = some err) :
    runListFunctions (pre ++ fn :: post) resources w
      = ((none, some err), (fn (worldAfter pre w)).2) := by
  induction pre generalizing resources w with
  | nil =>
    rcases hfw : fn w with ⟨⟨trackers, e⟩, w'⟩
    have he : e = some err := by simpa [worldAfter, hfw] using hfail
    subst he
    simp [runListFunctions, worldAfter, hfw]
  | cons g pre ih =>
    obtain ⟨h1, h2⟩ := hpre
    rcases hgw : g w with ⟨⟨trackers, e⟩, w'⟩
    rw [hgw] at h1 h2
    simp only at h1 h2
    subst h1
    have hfail' : (fn (worldAfter pre w')).1.2 = some err := by
      simpa [worldAfter, hgw] using hfail
    simp only [List.cons_append, runListFunctions, worldAfter, hgw]
    exact ih _ _ h2 hfail'

/-- C2 (key uniqueness, last write wins): when every list function succeeds,
`listResourcesVSphere`'s loop returns a map and a nil error; the map holds each
key once, its keys are the tracker keys of the produced records, it has one
entry per distinct tracker key, every entry sits under the tracker key of its
own record, and the entry of a key is the last produced record with that
key. -/
theorem listResourcesVSphere_key_uniqueness {σ : Type} (fns : List (vsphereListFn σ)) (w : σ)
    (h : allSucceed fns w) :
    ∃ m : GoMap,
      runListFunctions fns [] w = ((some m, none), worldAfter fns w) ∧
      (GoMap.keys m).Nodup ∧
      (∀ k, k ∈ GoMap.keys m ↔ ∃ r ∈ producedRecords fns w, GetResourceTrackerKey r = k) ∧
      m.length = ((producedRecords fns w).map GetResourceTrackerKey).dedup.length ∧
      (∀ k r, (k, r) ∈ m → k = GetResourceTrackerKey r) ∧
      (∀ k r, (k, r) ∈ m ↔
        ∃ before after, producedRecords fns w = before ++ r :: after ∧
          GetResourceTrackerKey r = k ∧ ∀ x ∈ after, GetResourceTrackerKey x ≠ k) := by
  have hnodup : (GoMap.keys (addTrackers [] (producedRecords fns w))).Nodup :=
    addTrackers_nodup _ [] (by simp [GoMap.keys])
  have hget : ∀ k, GoMap.get? (addTrackers [] (producedRecords fns w)) k
      = lastWithKey (producedRecords fns w) k := by
    intro k
    rw [addTrackers_get?]
    cases lastWithKey (producedRecords fns w) k <;> rfl
  have hkeys : ∀ k, k ∈ GoMap.keys (addTrackers [] (producedRecords fns w)) ↔
      ∃ r ∈ producedRecords fns w, GetResourceTrackerKey r = k := by
    intro k
    rw [GoMap.mem_keys_iff, hget, lastWithKey_isSome]
  have hentry : ∀ k r, (k, r) ∈ addTrackers [] (producedRecords fns w) ↔
      ∃ before after, producedRecords fns w = before ++ r :: after ∧
        GetResourceTrackerKey r = k ∧ ∀ x ∈ after, GetResourceTrackerKey x ≠ k := by
    intro k r
    rw [GoMap.mem_iff_get? _ hnodup, hget, lastWithKey_eq_some_iff]
  refine ⟨addTrackers [] (producedRecords fns w), runListFunctions_of_allSucceed fns [] w h,
    hnodup, hkeys, ?_, ?_, hentry⟩
  · have hperm : (GoMap.keys (addTrackers [] (producedRecords fns w))).Perm
        ((producedRecords fns w).map GetResourceTrackerKey).dedup := by
      rw [List.perm_ext_iff_of_nodup hnodup (List.nodup_dedup _)]
      intro k
      rw [hkeys, List.mem_dedup, List.mem_map]
    have hlen := hperm.length_eq
    simpa [GoMap.keys] using hlen
  · intro k r hkr
    obtain ⟨_, _, _, hk, _⟩ := (hentry k r).1 hkr
    exact hk.symm

/-! ## Deletion of a virtual machine -/

theorem newEvents_append (h evs : History) : newEvents h (h ++ evs) = evs := by
  simp [newEvents]

/-- The four ways a run of `deleteVM` on a virtual machine handle ends, each
with the history it leaves. -/
theorem deleteVM_cases (vc : VSphereCloud) (r : Resource) (vm : VirtualMachine) (h : History)
    (hobj : r.Obj = Obj.virtualMachine vm) :
    (∃ e, vc.PowerOff h vm = Except.error e ∧
      deleteVM (Cloud.vsphere vc) r h = (Outcome.returned (some e), h ++ [Event.powerOff vm])) ∨
    (∃ t e, vc.PowerOff h vm = Except.ok t ∧
      vc.Destroy (historyAtDestroy h vm t) vm = Except.error e ∧
      deleteVM (Cloud.vsphere vc) r h
        = (Outcome.returned (some e),
            h ++ [Event.powerOff vm, Event.wait t, Event.deleteCloudInitISO vm.Name,
              Event.destroy vm])) ∨
    (∃ t t2 e, vc.PowerOff h vm = Except.ok t ∧
      vc.Destroy (historyAtDestroy h vm t) vm = Except.ok t2 ∧
      vc.Wait (historyAtDestroyWait h vm t) t2 = some e ∧
      deleteVM (Cloud.vsphere vc) r h
        = (Outcome.fatal "Destroy VM failed: %q" e,
            h ++ [Event.powerOff vm, Event.wait t, Event.deleteCloudInitISO vm.Name,
              Event.destroy vm, Event.wait t2, Event.glogFatalf "Destroy VM failed: %q" e])) ∨
    (∃ t t2, vc.PowerOff h vm = Except.ok t ∧
      vc.Destroy (historyAtDestroy h vm t) vm = Except.ok t2 ∧
      vc.Wait (historyAtDestroyWait h vm t) t2 = none ∧
      deleteVM (Cloud.vsphere vc) r h
        = (Outcome.returned none,
            h ++ [Event.powerOff vm, Event.wait t, Event.deleteCloudInitISO vm.Name,
              Event.destroy vm, Event.wait t2])) := by
  cases hoff : vc.PowerOff h vm with
  | error e =>
    left
    exact ⟨e, rfl, by simp [deleteVM, hobj, hoff]⟩
  | ok t =>
    right
    have hD : historyAtDestroy h vm t =
        h ++ [Event.powerOff vm, Event.wait t, Event.deleteCloudInitISO vm.Name] := by
      simp [historyAtDestroy]
    have hW : historyAtDestroyWait h vm t =
        h ++ [Event.powerOff vm, Event.wait t, Event.deleteCloudInitISO vm.Name,
          Event.destroy vm] := by
      simp [historyAtDestroyWait, historyAtDestroy]
    cases hdes : vc.Destroy (historyAtDestroy h vm t) vm with
    | error e =>
      left
      refine ⟨t, e, rfl, hdes, ?_⟩
      rw [hD] at hdes
      simp [deleteVM, hobj, hoff, hdes]
    | ok t2 =>
      right
      cases hw : vc.Wait (historyAtDestroyWait h vm t) t2 with
      | some e =>
        left
        refine ⟨t, t2, e, rfl, hdes, hw, ?_⟩
        rw [hD] at hdes
        rw [hW] at hw
        simp [deleteVM, hobj, hoff, hdes, hw]
      | none =>
        right
        refine ⟨t, t2, rfl, hdes, hw, ?_⟩
        rw [hD] at hdes
        rw [hW] at hw
        simp [deleteVM, hobj, hoff, hdes, hw]

/-- A run of `deleteVM` that does not find a virtual machine handle behind a
vSphere cloud panics at a type assertion and calls nothing. -/
theorem deleteVM_panics (cloud : Cloud) (r : Resource) (h : History)
    (hne : ∀ vc vm, ¬ (cloud = Cloud.vsphere vc ∧ r.Obj = Obj.virtualMachine vm)) :
    deleteVM cloud r h = (Outcome.panicked, h) := by
  cases cloud with
  | other p => rfl
  | vsphere vc =>
    cases hobj : r.Obj with
    | virtualMachine vm => exact absurd ⟨rfl, hobj⟩ (hne vc vm)
    | nil => simp [deleteVM, hobj]
    | other tag => simp [deleteVM, hobj]

/-- C4 (deletion phase ordering): in every run of `deleteVM`, a destroy call
among the events of the run means that the run began with the power-off call
on the same handle, that this call returned a task, and that the task was
waited on before the one destroy call of the run. -/
theorem deleteVM_destroy_only_after_powerOff_wait (cloud : Cloud) (r : Resource) (h : History)
    (x : VirtualMachine) (hd : Event.destroy x ∈ newEvents h (deleteVM cloud r h).2) :
    ∃ vc t rest, cloud = Cloud.vsphere vc ∧ r.Obj = Obj.virtualMachine x ∧
      vc.PowerOff h x = Except.ok t ∧
      newEvents h (deleteVM cloud r h).2
        = Event.powerOff x :: Event.wait t :: Event.deleteCloudInitISO x.Name
            :: Event.destroy x :: rest ∧
      ∀ y, Event.destroy y ∉ rest := by
  cases cloud with
  | other p => simp [deleteVM, newEvents] at hd
  | vsphere vc =>
    cases hobj : r.Obj with
    | nil => simp [deleteVM, hobj, newEvents] at hd
    | other tag => simp [deleteVM, hobj, newEvents] at hd
    | virtualMachine vm =>
      rcases deleteVM_cases vc r vm h hobj with
        ⟨e, _, hrun⟩ | ⟨t, e, hoff, _, hrun⟩ | ⟨t, t2, e, hoff, _, _, hrun⟩ |
        ⟨t, t2, hoff, _, _, hrun⟩
      · rw [hrun, newEvents_append] at hd
        simp at hd
      · rw [hrun, newEvents_append] at hd ⊢
        have hx : x = vm := by simpa using hd
        subst hx
        exact ⟨vc, t, [], rfl, rfl, hoff, rfl, by simp⟩
      · rw [hrun, newEvents_append] at hd ⊢
        have hx : x = vm := by simpa using hd
        subst hx
        exact ⟨vc, t, _, rfl, rfl, hoff, rfl, by simp⟩
      · rw [hrun, newEvents_append] at hd ⊢
        have hx : x = vm := by simpa using hd
        subst hx
        exact ⟨vc, t, _, rfl, rfl, hoff, rfl, by simp⟩

/-- C5 (power-off start failure): on a record that holds a virtual machine
handle, when the power-off call fails to start with `e`, `deleteVM` returns
exactly `e`, the failed power-off call is the only event of the run, and the
destroy call and `DeleteCloudInitISO` are each invoked zero times. -/
theorem deleteVM_powerOff_start_failure (vc : VSphereCloud) (r : Resource)
    (vm : VirtualMachine) (h : History) (e : GoError)
    (hobj : r.Obj = Obj.virtualMachine vm) (hfail : vc.PowerOff h vm = Except.error e) :
    (deleteVM (Cloud.vsphere vc) r h).1 = Outcome.returned (some e) ∧
    newEvents h (deleteVM (Cloud.vsphere vc) r h).2 = [Event.powerOff vm] ∧
    (newEvents h (deleteVM (Cloud.vsphere vc) r h).2).countP Event.isDestroy = 0 ∧
    (newEvents h (deleteVM (Cloud.vsphere vc) r h).2).countP Event.isDeleteCloudInitISO = 0 := by
  have hrun : deleteVM (Cloud.vsphere vc) r h
      = (Outcome.returned (some e), h ++ [Event.powerOff vm]) := by
    simp [deleteVM, hobj, hfail]
  rw [hrun, newEvents_append]
  exact ⟨rfl, rfl, rfl, rfl⟩

/-- C6 (fatal on destroy completion failure): on a record that holds a virtual
machine handle, when power-off and destroy both start and the wait on the
destroy task reports `e`, `deleteVM` ends in the fatal fault of `glog.Fatalf`
and returns no value; and `deleteVM` returns nil exactly when the power-off
started, the destroy started and the wait on the destroy task reported no
failure. -/
theorem deleteVM_fatal_on_destroy_completion_failure (vc : VSphereCloud) (r : Resource)
    (vm : VirtualMachine) (h : History) (hobj : r.Obj = Obj.virtualMachine vm) :
    (∀ t t2 e, vc.PowerOff h vm = Except.ok t →
      vc.Destroy (historyAtDestroy h vm t) vm = Except.ok t2 →
      vc.Wait (historyAtDestroyWait h vm t) t2 = some e →
      (deleteVM (Cloud.vsphere vc) r h).1 = Outcome.fatal "Destroy VM failed: %q" e ∧
      ∀ v, (deleteVM (Cloud.vsphere vc) r h).1 ≠ Outcome.returned v) ∧
    ((deleteVM (Cloud.vsphere vc) r h).1 = Outcome.returned none ↔
      ∃ t t2, vc.PowerOff h vm = Except.ok t ∧
        vc.Destroy (historyAtDestroy h vm t) vm = Except.ok t2 ∧
        vc.Wait (historyAtDestroyWait h vm t) t2 = none) := by
  rcases deleteVM_cases vc r vm h hobj with
    ⟨e, hoff, hrun⟩ | ⟨t, e, hoff, hdes, hrun⟩ | ⟨t, t2, e, hoff, hdes, hw, hrun⟩ |
    ⟨t, t2, hoff, hdes, hw, hrun⟩
  · refine ⟨?_, ?_⟩
    · intro t t2 e' h1 _ _
      rw [hoff] at h1
      cases h1
    · rw [hrun]
      constructor
      · intro hc
        simp at hc
      · rintro ⟨t, t2, h1, _, _⟩
        rw [hoff] at h1
        cases h1
  · refine ⟨?_, ?_⟩
    · intro t' t2 e' h1 h2 _
      rw [hoff] at h1
      cases h1
      rw [hdes] at h2
      cases h2
    · rw [hrun]
      constructor
      · intro hc
        simp at hc
      · rintro ⟨t', t2, h1, h2, _⟩
        rw [hoff] at h1
        cases h1
        rw [hdes] at h2
        cases h2
  · refine ⟨?_, ?_⟩
    · intro t' t2' e' h1 h2 h3
      rw [hoff] at h1
      cases h1
      rw [hdes] at h2
      cases h2
      rw [hw] at h3
      cases h3
      rw [hrun]
      exact ⟨rfl, fun v hv => by cases hv⟩
    · rw [hrun]
      constructor
      · intro hc
        cases hc
      · rintro ⟨t', t2', h1, h2, h3⟩
        rw [hoff] at h1
        cases h1
        rw [hdes] at h2
        cases h2
        rw [hw] at h3
        cases h3
  · refine ⟨?_, ?_⟩
    · intro t' t2' e' h1 h2 h3
      rw [hoff] at h1
      cases h1
      rw [hdes] at h2
      cases h2
      rw [hw] at h3
      cases h3
    · rw [hrun]
      exact ⟨fun _ => ⟨t, t2, hoff, hdes, hw⟩, fun _ => rfl⟩

/-- C7 (best-effort isolation): on a record that holds a virtual machine handle
whose power-off started, replacing the answer of `DeleteCloudInitISO` by any
other answer leaves the whole run of `deleteVM` unchanged, its result and its
events alike, and the run issues the destroy call right after the
clean-up. -/
theorem deleteVM_cleanup_isolation (vc : VSphereCloud) (r : Resource) (vm : VirtualMachine)
    (h : History) (t : Task) (cleanup : History → String → Option GoError)
    (hobj : r.Obj = Obj.virtualMachine vm) (hoff : vc.PowerOff h vm = Except.ok t) :
    deleteVM (Cloud.vsphere { vc with DeleteCloudInitISO := cleanup }) r h
      = deleteVM (Cloud.vsphere vc) r h ∧
    ∃ rest, newEvents h (deleteVM (Cloud.vsphere vc) r h).2
      = Event.powerOff vm :: Event.wait t :: Event.deleteCloudInitISO vm.Name
          :: Event.destroy vm :: rest := by
  constructor
  · simp only [deleteVM, hobj]
  · rcases deleteVM_cases vc r vm h hobj with
      ⟨e, hoff', _⟩ | ⟨t', e, hoff', _, hrun⟩ | ⟨t', t2, e, hoff', _, _, hrun⟩ |
      ⟨t', t2, hoff', _, _, hrun⟩
    · rw [hoff] at hoff'
      cases hoff'
    · rw [hoff] at hoff'
      cases hoff'
      rw [hrun, newEvents_append]
      exact ⟨[], rfl⟩
    · rw [hoff] at hoff'
      cases hoff'
      rw [hrun, newEvents_append]
      exact ⟨_, rfl⟩
    · rw [hoff] at hoff'
      cases hoff'
      rw [hrun, newEvents_append]
      exact ⟨_, rfl⟩

/-- C8 as stated fails: on the provider whose destroy call fails to start,
`deleteVM` returns that start failure although the power-off has started, the
wait on its task has reported no failure, and the clean-up of the cloud-init
ISO has been invoked and has succeeded. -/
theorem deleteVM_destroy_start_failure_after_effects :
    destroyRefusedCloud.PowerOff [] vmMaster = Except.ok taskOff ∧
    destroyRefusedCloud.Wait (historyAtPowerOffWait [] vmMaster) taskOff = none ∧
    destroyRefusedCloud.DeleteCloudInitISO [Event.powerOff vmMaster, Event.wait taskOff]
      "masters.prod.i-1" = none ∧
    destroyRefusedCloud.Destroy (historyAtDestroy [] vmMaster taskOff) vmMaster
      = Except.error (GoError.other "destroy refused") ∧
    (deleteVM (Cloud.vsphere destroyRefusedCloud) (vmTracker vmMaster) []).1
      = Outcome.returned (some (GoError.other "destroy refused")) ∧
    newEvents [] (deleteVM (Cloud.vsphere destroyRefusedCloud) (vmTracker vmMaster) []).2
      = [Event.powerOff vmMaster, Event.wait taskOff,
          Event.deleteCloudInitISO "masters.prod.i-1", Event.destroy vmMaster] := by
  refine ⟨rfl, ?_, ?_, rfl, rfl, ?_⟩ <;> decide

/-- C8 amended: on a record that holds a virtual machine handle, `deleteVM`
returns an error `e` only for a start failure. Either the power-off call
failed to start with `e`, and then that failed call is the only event of the
run; or the power-off started and the destroy call failed to start with `e`,
and then the power-off call, the wait on its task and the clean-up of the
cloud-init ISO all came before the failed destroy call. -/
theorem deleteVM_start_failure_events (vc : VSphereCloud) (r : Resource) (vm : VirtualMachine)
    (h : History) (e : GoError) (hobj : r.Obj = Obj.virtualMachine vm)
    (herr : (deleteVM (Cloud.vsphere vc) r h).1 = Outcome.returned (some e)) :
    (vc.PowerOff h vm = Except.error e ∧
      newEvents h (deleteVM (Cloud.vsphere vc) r h).2 = [Event.powerOff vm]) ∨
    (∃ t, vc.PowerOff h vm = Except.ok t ∧
      vc.Destroy (historyAtDestroy h vm t) vm = Except.error e ∧
      newEvents h (deleteVM (Cloud.vsphere vc) r h).2
        = [Event.powerOff vm, Event.wait t, Event.deleteCloudInitISO vm.Name,
            Event.destroy vm]) := by
  rcases deleteVM_cases vc r vm h hobj with
    ⟨e', hoff, hrun⟩ | ⟨t, e', hoff, hdes, hrun⟩ | ⟨t, t2, e', hoff, hdes, hw, hrun⟩ |
    ⟨t, t2, hoff, hdes, hw, hrun⟩
  · rw [hrun] at herr ⊢
    have he : e' = e := by simpa using herr
    subst he
    exact Or.inl ⟨hoff, newEvents_append _ _⟩
  · rw [hrun] at herr ⊢
    have he : e' = e := by simpa using herr
    subst he
    exact Or.inr ⟨t, hoff, hdes, newEvents_append _ _⟩
  · rw [hrun] at herr
    cases herr
  · rw [hrun] at herr
    cases herr

/-- C9 as stated fails: on the provider whose power-off task reports a failure
when waited on, `deleteVM` neither stops nor faults: it goes on to the clean-up
and the destroy call and returns nil. -/
theorem deleteVM_powerOff_wait_failure_not_fatal :
    powerOffWaitFailsCloud.PowerOff [] vmMaster = Except.ok taskOff ∧
    powerOffWaitFailsCloud.Wait (historyAtPowerOffWait [] vmMaster) taskOff
      = some (GoError.other "power-off task failed") ∧
    deleteVM (Cloud.vsphere powerOffWaitFailsCloud) (vmTracker vmMaster) []
      = (Outcome.returned none,
          [Event.powerOff vmMaster, Event.wait taskOff,
            Event.deleteCloudInitISO "masters.prod.i-1", Event.destroy vmMaster,
            Event.wait taskDestroy]) := by
  refine ⟨rfl, ?_, ?_⟩ <;> decide

/-- C9 amended: on a record that holds a virtual machine handle, when the
power-off starts and the wait on its task reports a failure, `deleteVM` drops
that report and goes on to the clean-up and the destroy call; the run then ends
as the destroy decides: the start failure of the destroy call is returned, a
failure reported by the wait on the destroy task is the fatal fault, and
otherwise nil is returned. -/
theorem deleteVM_powerOff_wait_failure_dropped (vc : VSphereCloud) (r : Resource)
    (vm : VirtualMachine) (h : History) (t : Task) (e1 : GoError)
    (hobj : r.Obj = Obj.virtualMachine vm) (hoff : vc.PowerOff h vm = Except.ok t)
    (_hwait : vc.Wait (historyAtPowerOffWait h vm) t = some e1) :
    (∃ rest, newEvents h (deleteVM (Cloud.vsphere vc) r h).2
      = Event.powerOff vm :: Event.wait t :: Event.deleteCloudInitISO vm.Name
          :: Event.destroy vm :: rest) ∧
    (∀ e, vc.Destroy (historyAtDestroy h vm t) vm = Except.error e →
      (deleteVM (Cloud.vsphere vc) r h).1 = Outcome.returned (some e)) ∧
    (∀ t2 e, vc.Destroy (historyAtDestroy h vm t) vm = Except.ok t2 →
      vc.Wait (historyAtDestroyWait h vm t) t2 = some e →
      (deleteVM (Cloud.vsphere vc) r h).1 = Outcome.fatal "Destroy VM failed: %q" e) ∧
    (∀ t2, vc.Destroy (historyAtDestroy h vm t) vm = Except.ok t2 →
      vc.Wait (historyAtDestroyWait h vm t) t2 = none →
      (deleteVM (Cloud.vsphere vc) r h).1 = Outcome.returned none) := by
  rcases deleteVM_cases vc r vm h hobj with
    ⟨e, hoff', _⟩ | ⟨t', e, hoff', hdes, hrun⟩ | ⟨t', t2, e, hoff', hdes, hw, hrun⟩ |
    ⟨t', t2, hoff', hdes, hw, hrun⟩
  · rw [hoff] at hoff'
    cases hoff'
  · rw [hoff] at hoff'
    cases hoff'
    rw [hrun, newEvents_append]
    refine ⟨⟨[], rfl⟩, ?_, ?_, ?_⟩
    · intro e' h1
      rw [hdes] at h1
      cases h1
      rfl
    · intro t2 e' h1 _
      rw [hdes] at h1
      cases h1
    · intro t2 h1 _
      rw [hdes] at h1
      cases h1
  · rw [hoff] at hoff'
    cases hoff'
    rw [hrun, newEvents_append]
    refine ⟨⟨_, rfl⟩, ?_, ?_, ?_⟩
    · intro e' h1
      rw [hdes] at h1
      cases h1
    · intro t2' e' h1 h2
      rw [hdes] at h1
      cases h1
      rw [hw] at h2
      cases h2
      rfl
    · intro t2' h1 h2
      rw [hdes] at h1
      cases h1
      rw [hw] at h2
      cases h2
  · rw [hoff] at hoff'
    cases hoff'
    rw [hrun, newEvents_append]
    refine ⟨⟨_, rfl⟩, ?_, ?_, ?_⟩
    · intro e' h1
      rw [hdes] at h1
      cases h1
    · intro t2' e' h1 h2
      rw [hdes] at h1
      cases h1
      rw [hw] at h2
      cases h2
    · intro _ _ _
      rfl

/-! ## Discovery of virtual machines -/

theorem regexForMasterVMs_eq (clusterName : String) :
    regexForMasterVMs clusterName = "*.masters." ++ clusterName ++ "*" := by
  have hlit : ("*" ++ "." ++ "masters" ++ "." : String) = "*.masters." := by decide
  unfold regexForMasterVMs
  rw [hlit]

theorem regexForNodeVMs_eq (clusterName : String) :
    regexForNodeVMs clusterName = "nodes." ++ clusterName ++ "*" := by
  have hlit : ("nodes" ++ "." : String) = "nodes." := by decide
  unfold regexForNodeVMs
  rw [hlit]

theorem GetResourceTrackerKey_vmTracker (vm : VirtualMachine) :
    GetResourceTrackerKey (vmTracker vm) = "VM:" ++ vm.Name := by
  have hlit : ("VM" ++ ":" : String) = "VM:" := by decide
  unfold GetResourceTrackerKey vmTracker typeVM
  simp only
  rw [hlit]

theorem vmKey_injective (a b : String) (h : "VM:" ++ a = "VM:" ++ b) : a = b := by
  have hdata := congrArg String.data h
  simp only [String.data_append] at hdata
  exact String.ext (List.append_cancel_left hdata)

/-- What `listVMs` does once the query has answered: a `NotFoundError` or no
error gives one record per returned entity, any other error is returned. -/
theorem listVMs_eq (d : clusterDiscoveryVSphere) (h : History) :
    listVMs d h =
      match d.vsphereCloud.GetVirtualMachines h
          [regexForMasterVMs d.clusterName, regexForNodeVMs d.clusterName] with
      | (vms, some (GoError.notFound msg)) =>
        ((vms.map vmTracker, none),
          h ++ [Event.getVirtualMachines
              [regexForMasterVMs d.clusterName, regexForNodeVMs d.clusterName],
            Event.glogWarning (GoError.notFound msg)])
      | (_, some (GoError.other msg)) =>
        (([], some (GoError.other msg)),
          h ++ [Event.getVirtualMachines
            [regexForMasterVMs d.clusterName, regexForNodeVMs d.clusterName]])
      | (vms, none) =>
        ((vms.map vmTracker, none),
          h ++ [Event.getVirtualMachines
            [regexForMasterVMs d.clusterName, regexForNodeVMs d.clusterName]]) := by
  unfold listVMs
  rcases hq : d.vsphereCloud.GetVirtualMachines h
      [regexForMasterVMs d.clusterName, regexForNodeVMs d.clusterName] with ⟨vms, err⟩
  cases err with
  | none => simp [hq]
  | some e =>
    cases e with
    | notFound msg => simp [hq, GoError.isNotFound]
    | other msg => simp [hq, GoError.isNotFound]

/-- What `listResourcesVSphere` returns on a vSphere cloud whose single list
function succeeds with the records `trackers`. -/
theorem listResourcesVSphere_of_listVMs (c : ClusterResources) (vc : VSphereCloud)
    (h h' : History) (trackers : List Resource) (hc : c.Cloud = Cloud.vsphere vc)
    (hl : listVMs (discoveryOf c vc) h = ((trackers, none), h')) :
    listResourcesVSphere c h
      = (Outcome.returned (some (addTrackers [] trackers), none), h') := by
  unfold listResourcesVSphere
  unfold discoveryOf at hl
  simp only [hc] at hl ⊢
  simp [runListFunctions, hl]

/-- C3 as stated fails: on the provider whose query returns a `NotFoundError`
together with one entity, `listVMs` yields the record of that entity, and
`listResourcesVSphere` returns a map with one entry. -/
theorem listVMs_notFound_with_entity_nonempty :
    notFoundWithEntityCloud.GetVirtualMachines []
        [regexForMasterVMs "prod", regexForNodeVMs "prod"]
      = ([vmMaster], some (GoError.notFound "vm nodes.prod* not found")) ∧
    (listVMs (discoveryOf { ClusterName := "prod", Cloud := Cloud.vsphere notFoundWithEntityCloud }
        notFoundWithEntityCloud) []).1 = ([vmTracker vmMaster], none) ∧
    (listResourcesVSphere
        { ClusterName := "prod", Cloud := Cloud.vsphere notFoundWithEntityCloud } []).1
      = Outcome.returned (some [("VM:masters.prod.i-1", vmTracker vmMaster)], none) := by
  refine ⟨rfl, ?_, ?_⟩ <;> decide

/-- C3 amended: for every cluster, when `GetVirtualMachines` returns a
`NotFoundError`, `listVMs` yields no error and one record per entity of the
list that comes with the error, and `listResourcesVSphere` returns the map of
these records with a nil error; when that list is empty, `listVMs` yields the
empty sequence and `listResourcesVSphere` the empty map. -/
theorem listVMs_notFound_tolerance (c : ClusterResources) (vc : VSphereCloud) (h : History)
    (vms : List VirtualMachine) (msg : String) (hc : c.Cloud = Cloud.vsphere vc)
    (hq : vc.GetVirtualMachines h
        [regexForMasterVMs c.ClusterName, regexForNodeVMs c.ClusterName]
      = (vms, some (GoError.notFound msg))) :
    (listVMs (discoveryOf c vc) h).1 = (vms.map vmTracker, none) ∧
    (listResourcesVSphere c h).1
      = Outcome.returned (some (addTrackers [] (vms.map vmTracker)), none) ∧
    (vms = [] →
      (listVMs (discoveryOf c vc) h).1 = ([], none) ∧
      (listResourcesVSphere c h).1 = Outcome.returned (some [], none)) := by
  have hl : listVMs (discoveryOf c vc) h
      = ((vms.map vmTracker, none),
          h ++ [Event.getVirtualMachines
              [regexForMasterVMs c.ClusterName, regexForNodeVMs c.ClusterName],
            Event.glogWarning (GoError.notFound msg)]) := by
    rw [listVMs_eq]
    simp only [discoveryOf, hq]
  have hr := listResourcesVSphere_of_listVMs c vc h _ _ hc hl
  refine ⟨by rw [hl], by rw [hr], ?_⟩
  intro hempty
  subst hempty
  exact ⟨by rw [hl]; rfl, by rw [hr]; rfl⟩

theorem vmTrackers_nodup (vms : List VirtualMachine) :
    (GoMap.keys (addTrackers [] (vms.map vmTracker))).Nodup :=
  addTrackers_nodup _ [] (by simp [GoMap.keys])

theorem vmTrackers_get? (vms : List VirtualMachine) (k : String) :
    GoMap.get? (addTrackers [] (vms.map vmTracker)) k = lastWithKey (vms.map vmTracker) k := by
  rw [addTrackers_get?]
  cases lastWithKey (vms.map vmTracker) k <;> rfl

/-- The keys of the map built from the records of the entities `vms` are the
strings `VM:<name>` of these entities. -/
theorem vmTrackers_mem_keys (vms : List VirtualMachine) (k : String) :
    k ∈ GoMap.keys (addTrackers [] (vms.map vmTracker)) ↔
      ∃ vm ∈ vms, k = "VM:" ++ vm.Name := by
  rw [GoMap.mem_keys_iff, vmTrackers_get?, lastWithKey_isSome]
  constructor
  · rintro ⟨r, hr, hk⟩
    obtain ⟨vm, hvm, rfl⟩ := List.mem_map.1 hr
    exact ⟨vm, hvm, by rw [← hk, GetResourceTrackerKey_vmTracker]⟩
  · rintro ⟨vm, hvm, hk⟩
    exact ⟨vmTracker vm, List.mem_map.2 ⟨vm, hvm, rfl⟩,
      by rw [hk, GetResourceTrackerKey_vmTracker]⟩

/-- The entries of the map built from the records of the entities `vms`: under
`VM:<name>` sits the record of the last entity of that name. -/
theorem vmTrackers_entry (vms : List VirtualMachine) (k : String) (r : Resource) :
    (k, r) ∈ addTrackers [] (vms.map vmTracker) ↔
      ∃ before vm after, vms = before ++ vm :: after ∧ k = "VM:" ++ vm.Name ∧
        r = vmTracker vm ∧ ∀ x ∈ after, x.Name ≠ vm.Name := by
  rw [GoMap.mem_iff_get? _ (vmTrackers_nodup vms), vmTrackers_get?, lastWithKey_eq_some_iff]
  constructor
  · rintro ⟨before, after, hsplit, hk, hafter⟩
    obtain ⟨l₁, l₂, hvms, h₁, h₂⟩ := List.map_eq_append_iff.1 hsplit
    obtain ⟨vm, l₃, hl₂, hvm, h₃⟩ := List.map_eq_cons_iff.1 h₂
    subst hvm
    refine ⟨l₁, vm, l₃, by rw [hvms, hl₂], ?_, rfl, ?_⟩
    · rw [← hk, GetResourceTrackerKey_vmTracker]
    · intro x hx hname
      apply hafter (vmTracker x) (by rw [← h₃]; exact List.mem_map.2 ⟨x, hx, rfl⟩)
      rw [← hk, GetResourceTrackerKey_vmTracker, GetResourceTrackerKey_vmTracker, hname]
  · rintro ⟨before, vm, after, hvms, hk, hr, hafter⟩
    subst hr
    refine ⟨before.map vmTracker, after.map vmTracker, by rw [hvms]; simp, ?_, ?_⟩
    · rw [hk, GetResourceTrackerKey_vmTracker]
    · intro x hx hkx
      obtain ⟨y, hy, rfl⟩ := List.mem_map.1 hx
      rw [hk, GetResourceTrackerKey_vmTracker] at hkx
      exact hafter y hy (vmKey_injective _ _ hkx)

/-- A map whose keys are those of a duplicate-free list has as many entries as
the list has members. -/
theorem GoMap.length_eq_of_keys (m : GoMap) (hm : (GoMap.keys m).Nodup) (ks : List String)
    (hks : ks.Nodup) (h : ∀ k, k ∈ GoMap.keys m ↔ k ∈ ks) : m.length = ks.length := by
  have hperm : (GoMap.keys m).Perm ks := (List.perm_ext_iff_of_nodup hm hks).2 h
  simpa [GoMap.keys] using hperm.length_eq

/-- Whatever the query answers, `listVMs` makes one query, with the two
patterns built from the cluster name, before anything else. -/
theorem listVMs_history (d : clusterDiscoveryVSphere) (h : History) :
    ∃ rest, (listVMs d h).2
        = h ++ Event.getVirtualMachines
            [regexForMasterVMs d.clusterName, regexForNodeVMs d.clusterName] :: rest ∧
      ∀ args, Event.getVirtualMachines args ∉ rest := by
  rw [listVMs_eq]
  rcases d.vsphereCloud.GetVirtualMachines h
      [regexForMasterVMs d.clusterName, regexForNodeVMs d.clusterName] with ⟨vms, err⟩
  cases err with
  | none => exact ⟨[], rfl, by simp⟩
  | some e =>
    cases e with
    | notFound msg => exact ⟨[Event.glogWarning (GoError.notFound msg)], rfl, by simp⟩
    | other msg => exact ⟨[], rfl, by simp⟩

/-- A query that answers with a nil error or a not-found error makes
`listVMs` return the records of the returned entities and a nil error. -/
theorem listVMs_of_benign (d : clusterDiscoveryVSphere) (h : History)
    (hbenign : (d.vsphereCloud.GetVirtualMachines h
        [regexForMasterVMs d.clusterName, regexForNodeVMs d.clusterName]).2 = none ∨
      ∃ msg, (d.vsphereCloud.GetVirtualMachines h
        [regexForMasterVMs d.clusterName, regexForNodeVMs d.clusterName]).2
          = some (GoError.notFound msg)) :
    ∃ h', listVMs d h
      = (((d.vsphereCloud.GetVirtualMachines h
            [regexForMasterVMs d.clusterName, regexForNodeVMs d.clusterName]).1.map vmTracker,
          none), h') := by
  rw [listVMs_eq]
  generalize d.vsphereCloud.GetVirtualMachines h
      [regexForMasterVMs d.clusterName, regexForNodeVMs d.clusterName] = q at hbenign ⊢
  obtain ⟨vms, err⟩ := q
  rcases hbenign with hnone | ⟨msg, hnf⟩
  · have hnone' : err = none := hnone
    subst hnone'
    exact ⟨_, rfl⟩
  · have hnf' : err = some (GoError.notFound msg) := hnf
    subst hnf'
    exact ⟨_, rfl⟩

/-- On a provider that honours the patterns over an inventory,
`listResourcesVSphere` returns a map and a nil error, and the keys of the map
are the strings `VM:<name>` of the entities of the inventory whose name matches
the master pattern or the node pattern of the cluster. -/
theorem listResourcesVSphere_of_honoured (c : ClusterResources) (vc : VSphereCloud)
    (h : History) (inventory : List VirtualMachine) (hc : c.Cloud = Cloud.vsphere vc)
    (hp : honoursPatterns vc inventory) :
    ∃ m : GoMap,
      (listResourcesVSphere c h).1 = Outcome.returned (some m, none) ∧
      (GoMap.keys m).Nodup ∧
      ∀ k, k ∈ GoMap.keys m ↔
        ∃ vm ∈ inventory,
          (globMatch (regexForMasterVMs c.ClusterName) vm.Name = true ∨
            globMatch (regexForNodeVMs c.ClusterName) vm.Name = true) ∧
          k = "VM:" ++ vm.Name := by
  obtain ⟨hmem, hbenign⟩ :=
    hp h [regexForMasterVMs c.ClusterName, regexForNodeVMs c.ClusterName]
  obtain ⟨h', hl⟩ := listVMs_of_benign (discoveryOf c vc) h hbenign
  have hr := listResourcesVSphere_of_listVMs c vc h h' _ hc hl
  refine ⟨_, by rw [hr], vmTrackers_nodup _, ?_⟩
  intro k
  rw [vmTrackers_mem_keys]
  constructor
  · rintro ⟨vm, hvm, hk⟩
    obtain ⟨hinv, p, hpmem, hmatch⟩ := (hmem vm).1 hvm
    refine ⟨vm, hinv, ?_, hk⟩
    rcases List.mem_cons.1 hpmem with hp1 | hp2
    · exact Or.inl (hp1 ▸ hmatch)
    · have hp2' : p = regexForNodeVMs c.ClusterName := by simpa using hp2
      exact Or.inr (hp2' ▸ hmatch)
  · rintro ⟨vm, hinv, hmatch, hk⟩
    refine ⟨vm, (hmem vm).2 ⟨hinv, ?_⟩, hk⟩
    rcases hmatch with h1 | h2
    · exact ⟨_, List.mem_cons_self _ _, h1⟩
    · exact ⟨_, List.mem_cons_of_mem _ (List.mem_cons_self _ _), h2⟩

theorem globQuery_mem (inventory : List VirtualMachine) (args : List String)
    (vm : VirtualMachine) :
    vm ∈ (globQuery inventory args).1 ↔
      vm ∈ inventory ∧ ∃ p ∈ args, globMatch p vm.Name = true := by
  induction args with
  | nil => simp [globQuery]
  | cons arg rest ih =>
    simp only [globQuery, List.mem_append, List.mem_filter, ih, List.mem_cons,
      exists_eq_or_imp]
    tauto

theorem globQuery_error (inventory : List VirtualMachine) (args : List String) :
    (globQuery inventory args).2 = none ∨
      ∃ msg, (globQuery inventory args).2 = some (GoError.notFound msg) := by
  induction args with
  | nil => exact Or.inl rfl
  | cons arg rest ih =>
    simp only [globQuery]
    rcases ih with hnone | ⟨msg, hsome⟩
    · rw [hnone]
      by_cases hfound :
          (inventory.filter (fun vm => globMatch arg vm.Name)).isEmpty = true
      · exact Or.inr ⟨arg, by simp [hfound]⟩
      · exact Or.inl (by simp [hfound])
    · rw [hsome]
      exact Or.inr ⟨msg, rfl⟩

/-- The sample provider `globCloud` honours the patterns over its inventory. -/
theorem globCloud_honoursPatterns (inventory : List VirtualMachine) :
    honoursPatterns (globCloud inventory) inventory :=
  fun _ args => ⟨fun vm => globQuery_mem inventory args vm, globQuery_error inventory args⟩

/-- C10 as stated fails: for cluster `prod` on a provider that honours the
patterns and holds the entities `masters.prod.i-1` and `nodes.prod.i-2`, the
master pattern `*.masters.prod*` does not match `masters.prod.i-1`, and
`listResourcesVSphere` returns a map with the single key `VM:nodes.prod.i-2`:
`VM:masters.prod.i-1` is not a key. -/
theorem listResourcesVSphere_prod_scenario_one_key :
    regexForMasterVMs "prod" = "*.masters.prod*" ∧
    globMatch "*.masters.prod*" "masters.prod.i-1" = false ∧
    (globCloud [vmMaster, vmNode]).GetVirtualMachines []
        [regexForMasterVMs "prod", regexForNodeVMs "prod"]
      = ([vmNode], some (GoError.notFound "*.masters.prod*")) ∧
    (listResourcesVSphere prodCluster []).1
      = Outcome.returned (some [("VM:nodes.prod.i-2", vmTracker vmNode)], none) ∧
    GoMap.get? [("VM:nodes.prod.i-2", vmTracker vmNode)] "VM:masters.prod.i-1" = none := by
  refine ⟨?_, ?_, ?_, ?_, ?_⟩ <;> decide

/-- C10 amended (discovery result shape): for every cluster name, `listVMs`
makes one query, with the patterns `*.masters.<cluster>*` and
`nodes.<cluster>*`, whatever the query answers; when the query returns entities
without error, `listResourcesVSphere` returns a map and a nil error; the keys
of the map are the strings `VM:<name>` of the returned entities, each once;
every entry is the record built from a returned entity of that name, with
`Type` `VM`, `ID` and `Name` the entity's name and `Obj` the entity, namely the
last returned entity of that name. For cluster `prod` on a provider that
honours the patterns, with entities named `masters.prod.i-1` and
`nodes.prod.i-2` the map has exactly the one key `VM:nodes.prod.i-2`, and with
entities named `master-a.masters.prod.i-1` and `nodes.prod.i-2` it has exactly
the two keys `VM:master-a.masters.prod.i-1` and `VM:nodes.prod.i-2`. -/
theorem listResourcesVSphere_result_shape (c : ClusterResources) (vc : VSphereCloud)
    (h : History) (hc : c.Cloud = Cloud.vsphere vc) :
    (∃ rest, (listVMs (discoveryOf c vc) h).2
        = h ++ Event.getVirtualMachines
            ["*.masters." ++ c.ClusterName ++ "*", "nodes." ++ c.ClusterName ++ "*"] :: rest ∧
      ∀ args, Event.getVirtualMachines args ∉ rest) ∧
    (∀ vms, vc.GetVirtualMachines h
        ["*.masters." ++ c.ClusterName ++ "*", "nodes." ++ c.ClusterName ++ "*"]
        = (vms, none) →
      ∃ m : GoMap,
        (listResourcesVSphere c h).1 = Outcome.returned (some m, none) ∧
        (GoMap.keys m).Nodup ∧
        (∀ k, k ∈ GoMap.keys m ↔ ∃ vm ∈ vms, k = "VM:" ++ vm.Name) ∧
        (∀ k r, (k, r) ∈ m →
          ∃ vm ∈ vms, k = "VM:" ++ vm.Name ∧ r.Kind = "VM" ∧ r.ID = vm.Name ∧
            r.Name = vm.Name ∧ r.Obj = Obj.virtualMachine vm ∧
            r.Deleter = Deleter.deleteVM ∧ r.Dumper = Dumper.DumpVMInfo) ∧
        (∀ k r, (k, r) ∈ m ↔
          ∃ before vm after, vms = before ++ vm :: after ∧ k = "VM:" ++ vm.Name ∧
            r = vmTracker vm ∧ ∀ x ∈ after, x.Name ≠ vm.Name)) ∧
    (∀ inventory, honoursPatterns vc inventory → c.ClusterName = "prod" →
      inventory.map (fun vm => vm.Name) = ["masters.prod.i-1", "nodes.prod.i-2"] →
      ∃ m : GoMap,
        (listResourcesVSphere c h).1 = Outcome.returned (some m, none) ∧
        m.length = 1 ∧
        ∀ k, k ∈ GoMap.keys m ↔ k = "VM:nodes.prod.i-2") ∧
    (∀ inventory, honoursPatterns vc inventory → c.ClusterName = "prod" →
      inventory.map (fun vm => vm.Name) = ["master-a.masters.prod.i-1", "nodes.prod.i-2"] →
      ∃ m : GoMap,
        (listResourcesVSphere c h).1 = Outcome.returned (some m, none) ∧
        m.length = 2 ∧
        ∀ k, k ∈ GoMap.keys m ↔
          k = "VM:master-a.masters.prod.i-1" ∨ k = "VM:nodes.prod.i-2") := by
  refine ⟨?_, ?_, ?_, ?_⟩
  · rw [← regexForMasterVMs_eq, ← regexForNodeVMs_eq]
    exact listVMs_history (discoveryOf c vc) h
  · intro vms hq
    rw [← regexForMasterVMs_eq, ← regexForNodeVMs_eq] at hq
    have hl : listVMs (discoveryOf c vc) h
        = ((vms.map vmTracker, none),
            h ++ [Event.getVirtualMachines
                [regexForMasterVMs c.ClusterName, regexForNodeVMs c.ClusterName]]) := by
      rw [listVMs_eq]
      simp only [discoveryOf, hq]
    have hr := listResourcesVSphere_of_listVMs c vc h _ _ hc hl
    refine ⟨addTrackers [] (vms.map vmTracker), by rw [hr], vmTrackers_nodup vms,
      vmTrackers_mem_keys vms, ?_, vmTrackers_entry vms⟩
    intro k r hkr
    obtain ⟨before, vm, after, hvms, hk, hr', _⟩ := (vmTrackers_entry vms k r).1 hkr
    subst hr'
    exact ⟨vm, by rw [hvms]; simp, hk, rfl, rfl, rfl, rfl, rfl, rfl⟩
  · intro inventory hp hname hnames
    obtain ⟨m, hm, hnd, hk⟩ := listResourcesVSphere_of_honoured c vc h inventory hc hp
    obtain ⟨v₁, l₁, hinv, hn₁, hrest⟩ := List.map_eq_cons_iff.1 hnames
    obtain ⟨v₂, l₂, hl₁, hn₂, hnil⟩ := List.map_eq_cons_iff.1 hrest
    have hl₂ : l₂ = [] := List.map_eq_nil_iff.1 hnil
    subst hl₂ hl₁ hinv
    have f₁ : globMatch (regexForMasterVMs "prod") "masters.prod.i-1" = false := by decide
    have f₂ : globMatch (regexForNodeVMs "prod") "masters.prod.i-1" = false := by decide
    have f₃ : globMatch (regexForNodeVMs "prod") "nodes.prod.i-2" = true := by decide
    have hk' : ∀ k, k ∈ GoMap.keys m ↔ k ∈ ["VM:nodes.prod.i-2"] := by
      intro k
      rw [hk, hname]
      have hlit : ("VM:" ++ "nodes.prod.i-2" : String) = "VM:nodes.prod.i-2" := by decide
      simp [hn₁, hn₂, f₁, f₂, f₃, hlit]
    refine ⟨m, hm, GoMap.length_eq_of_keys m hnd _ (by simp) hk', ?_⟩
    intro k
    rw [hk' k]
    simp
  · intro inventory hp hname hnames
    obtain ⟨m, hm, hnd, hk⟩ := listResourcesVSphere_of_honoured c vc h inventory hc hp
    obtain ⟨v₁, l₁, hinv, hn₁, hrest⟩ := List.map_eq_cons_iff.1 hnames
    obtain ⟨v₂, l₂, hl₁, hn₂, hnil⟩ := List.map_eq_cons_iff.1 hrest
    have hl₂ : l₂ = [] := List.map_eq_nil_iff.1 hnil
    subst hl₂ hl₁ hinv
    have f₁ : globMatch (regexForMasterVMs "prod") "master-a.masters.prod.i-1" = true := by
      decide
    have f₃ : globMatch (regexForNodeVMs "prod") "nodes.prod.i-2" = true := by decide
    have hk' : ∀ k, k ∈ GoMap.keys m ↔
        k ∈ ["VM:master-a.masters.prod.i-1", "VM:nodes.prod.i-2"] := by
      intro k
      rw [hk, hname]
      have hlit₁ : ("VM:" ++ "master-a.masters.prod.i-1" : String)
          = "VM:master-a.masters.prod.i-1" := by decide
      have hlit₂ : ("VM:" ++ "nodes.prod.i-2" : String) = "VM:nodes.prod.i-2" := by decide
      simp [hn₁, hn₂, f₁, f₃, hlit₁, hlit₂]
    refine ⟨m, hm, GoMap.length_eq_of_keys m hnd _ (by decide) hk', ?_⟩
    intro k
    rw [hk' k]
    simp

/-! ## The statements at sample inputs -/

/-- Witness of C1: one function succeeds, the next fails, a third is never run; the
world counts two calls. -/
theorem listResourcesVSphere_fail_fast_witness :
    allSucceed [countingListFn vmMaster] 0 ∧
    (failingListFn (GoError.other "query failed")
      (worldAfter [countingListFn vmMaster] 0)).1.2 = some (GoError.other "query failed") ∧
    runListFunctions
        ([countingListFn vmMaster] ++
          failingListFn (GoError.other "query failed") :: [countingListFn vmNode]) [] 0
      = ((none, some (GoError.other "query failed")), 2) :=
  ⟨⟨rfl, trivial⟩, rfl,
    listResourcesVSphere_fail_fast [countingListFn vmMaster] [countingListFn vmNode]
      (failingListFn (GoError.other "query failed")) [] 0 (GoError.other "query failed")
      ⟨rfl, trivial⟩ rfl⟩

/-- Witness of C2: three functions, the first and the third producing records with
the same key; the map has two entries. -/
theorem listResourcesVSphere_key_uniqueness_witness :
    allSucceed [countingListFn vmMaster, countingListFn vmNode, countingListFn vmMasterTwin] 0 ∧
    ∃ m : GoMap,
      runListFunctions
          [countingListFn vmMaster, countingListFn vmNode, countingListFn vmMasterTwin] [] 0
        = ((some m, none), 3) ∧
      (GoMap.keys m).Nodup ∧ m.length = 2 ∧
      (∀ k r, (k, r) ∈ m → k = GetResourceTrackerKey r) :=
  ⟨⟨rfl, rfl, rfl, trivial⟩,
    (listResourcesVSphere_key_uniqueness
      [countingListFn vmMaster, countingListFn vmNode, countingListFn vmMasterTwin] 0
      ⟨rfl, rfl, rfl, trivial⟩).imp
      (fun _ hm => ⟨hm.1, hm.2.1, hm.2.2.2.1.trans (by decide), hm.2.2.2.2.1⟩)⟩

/-- Witness of C3 as amended: the scenario of cluster `empty`. -/
theorem listVMs_notFound_tolerance_witness :
    emptyCluster.Cloud = Cloud.vsphere notFoundEmptyCloud ∧
    notFoundEmptyCloud.GetVirtualMachines []
        [regexForMasterVMs emptyCluster.ClusterName, regexForNodeVMs emptyCluster.ClusterName]
      = ([], some (GoError.notFound "vm *.masters.empty* not found")) ∧
    (listVMs (discoveryOf emptyCluster notFoundEmptyCloud) []).1 = ([], none) ∧
    (listResourcesVSphere emptyCluster []).1 = Outcome.returned (some [], none) :=
  ⟨rfl, rfl,
    (listVMs_notFound_tolerance emptyCluster notFoundEmptyCloud [] []
      "vm *.masters.empty* not found" rfl rfl).2.2 rfl⟩

/-- Witness of C4: a run on the healthy provider. -/
theorem deleteVM_destroy_only_after_powerOff_wait_witness :
    Event.destroy vmMaster
      ∈ newEvents [] (deleteVM (Cloud.vsphere healthyCloud) (vmTracker vmMaster) []).2 ∧
    ∃ vc t rest, Cloud.vsphere healthyCloud = Cloud.vsphere vc ∧
      (vmTracker vmMaster).Obj = Obj.virtualMachine vmMaster ∧
      vc.PowerOff [] vmMaster = Except.ok t ∧
      newEvents [] (deleteVM (Cloud.vsphere healthyCloud) (vmTracker vmMaster) []).2
        = Event.powerOff vmMaster :: Event.wait t
            :: Event.deleteCloudInitISO vmMaster.Name :: Event.destroy vmMaster :: rest ∧
      ∀ y, Event.destroy y ∉ rest :=
  ⟨by decide,
    deleteVM_destroy_only_after_powerOff_wait (Cloud.vsphere healthyCloud) (vmTracker vmMaster)
      [] vmMaster (by decide)⟩

/-- Witness of C5: a run on the provider that refuses the power-off. -/
theorem deleteVM_powerOff_start_failure_witness :
    (vmTracker vmMaster).Obj = Obj.virtualMachine vmMaster ∧
    powerOffRefusedCloud.PowerOff [] vmMaster
      = Except.error (GoError.other "power-off refused") ∧
    (deleteVM (Cloud.vsphere powerOffRefusedCloud) (vmTracker vmMaster) []).1
      = Outcome.returned (some (GoError.other "power-off refused")) ∧
    newEvents [] (deleteVM (Cloud.vsphere powerOffRefusedCloud) (vmTracker vmMaster) []).2
      = [Event.powerOff vmMaster] :=
  ⟨rfl, rfl,
    (deleteVM_powerOff_start_failure powerOffRefusedCloud (vmTracker vmMaster) vmMaster []
      (GoError.other "power-off refused") rfl rfl).1,
    (deleteVM_powerOff_start_failure powerOffRefusedCloud (vmTracker vmMaster) vmMaster []
      (GoError.other "power-off refused") rfl rfl).2.1⟩

/-- Witness of C6: a run on the provider whose destroy task fails. -/
theorem deleteVM_fatal_on_destroy_completion_failure_witness :
    (vmTracker vmMaster).Obj = Obj.virtualMachine vmMaster ∧
    destroyWaitFailsCloud.PowerOff [] vmMaster = Except.ok taskOff ∧
    destroyWaitFailsCloud.Destroy (historyAtDestroy [] vmMaster taskOff) vmMaster
      = Except.ok taskDestroy ∧
    destroyWaitFailsCloud.Wait (historyAtDestroyWait [] vmMaster taskOff) taskDestroy
      = some (GoError.other "destroy task failed") ∧
    (deleteVM (Cloud.vsphere destroyWaitFailsCloud) (vmTracker vmMaster) []).1
      = Outcome.fatal "Destroy VM failed: %q" (GoError.other "destroy task failed") :=
  ⟨rfl, rfl, rfl, by decide,
    ((deleteVM_fatal_on_destroy_completion_failure destroyWaitFailsCloud (vmTracker vmMaster)
      vmMaster [] rfl).1 taskOff taskDestroy (GoError.other "destroy task failed") rfl rfl
      (by decide)).1⟩

/-- Witness of C7: the healthy provider, and the same provider with a clean-up
that fails. -/
theorem deleteVM_cleanup_isolation_witness :
    (vmTracker vmMaster).Obj = Obj.virtualMachine vmMaster ∧
    healthyCloud.PowerOff [] vmMaster = Except.ok taskOff ∧
    deleteVM (Cloud.vsphere { healthyCloud with DeleteCloudInitISO := cleanupFails })
        (vmTracker vmMaster) []
      = deleteVM (Cloud.vsphere healthyCloud) (vmTracker vmMaster) [] :=
  ⟨rfl, rfl,
    (deleteVM_cleanup_isolation healthyCloud (vmTracker vmMaster) vmMaster [] taskOff
      cleanupFails rfl rfl).1⟩

/-- Witness of C8 as amended: a run on the provider that refuses the destroy. -/
theorem deleteVM_start_failure_events_witness :
    (vmTracker vmMaster).Obj = Obj.virtualMachine vmMaster ∧
    (deleteVM (Cloud.vsphere destroyRefusedCloud) (vmTracker vmMaster) []).1
      = Outcome.returned (some (GoError.other "destroy refused")) ∧
    ((destroyRefusedCloud.PowerOff [] vmMaster = Except.error (GoError.other "destroy refused") ∧
      newEvents [] (deleteVM (Cloud.vsphere destroyRefusedCloud) (vmTracker vmMaster) []).2
        = [Event.powerOff vmMaster]) ∨
    (∃ t, destroyRefusedCloud.PowerOff [] vmMaster = Except.ok t ∧
      destroyRefusedCloud.Destroy (historyAtDestroy [] vmMaster t) vmMaster
        = Except.error (GoError.other "destroy refused") ∧
      newEvents [] (deleteVM (Cloud.vsphere destroyRefusedCloud) (vmTracker vmMaster) []).2
        = [Event.powerOff vmMaster, Event.wait t, Event.deleteCloudInitISO vmMaster.Name,
            Event.destroy vmMaster])) :=
  ⟨rfl, rfl,
    deleteVM_start_failure_events destroyRefusedCloud (vmTracker vmMaster) vmMaster []
      (GoError.other "destroy refused") rfl rfl⟩

/-- Witness of C9 as amended: a run on the provider whose power-off task fails. -/
theorem deleteVM_powerOff_wait_failure_dropped_witness :
    (vmTracker vmMaster).Obj = Obj.virtualMachine vmMaster ∧
    powerOffWaitFailsCloud.PowerOff [] vmMaster = Except.ok taskOff ∧
    powerOffWaitFailsCloud.Wait (historyAtPowerOffWait [] vmMaster) taskOff
      = some (GoError.other "power-off task failed") ∧
    (deleteVM (Cloud.vsphere powerOffWaitFailsCloud) (vmTracker vmMaster) []).1
      = Outcome.returned none :=
  ⟨rfl, rfl, by decide,
    (deleteVM_powerOff_wait_failure_dropped powerOffWaitFailsCloud (vmTracker vmMaster)
      vmMaster [] taskOff (GoError.other "power-off task failed") rfl rfl
      (by decide)).2.2.2 taskDestroy rfl (by decide)⟩

/-- Witness of C10 as amended: the scenario of cluster `prod` on a provider that
honours the patterns. -/
theorem listResourcesVSphere_result_shape_witness :
    prodCluster.Cloud = Cloud.vsphere (globCloud [vmMaster, vmNode]) ∧
    honoursPatterns (globCloud [vmMaster, vmNode]) [vmMaster, vmNode] ∧
    prodCluster.ClusterName = "prod" ∧
    [vmMaster, vmNode].map (fun vm => vm.Name) = ["masters.prod.i-1", "nodes.prod.i-2"] ∧
    ∃ m : GoMap,
      (listResourcesVSphere prodCluster []).1 = Outcome.returned (some m, none) ∧
      m.length = 1 ∧
      ∀ k, k ∈ GoMap.keys m ↔ k = "VM:nodes.prod.i-2" :=
  ⟨rfl, globCloud_honoursPatterns [vmMaster, vmNode], rfl, rfl,
    (listResourcesVSphere_result_shape prodCluster (globCloud [vmMaster, vmNode]) []
      rfl).2.2.1 [vmMaster, vmNode] (globCloud_honoursPatterns [vmMaster, vmNode]) rfl rfl⟩

end VSphere
